/-
  Verification of the tvsrocks scan-alert core.

  Shallow embedding of:
  - src/src/services/stock.js        (premarket step-alert engine: processStockData)
  - src/src/core/utils/format.js     (createStockMessage and number formatting)
  - src/unnamed/part_005             (Shadow Velocity market scanner: calcSVS, calcHSS,
                                      scanOnce trigger loop, isCooldown, sendAlert)
  - src/src/services/catalystService.js (Catalyst Sniper: performScan active phase,
                                      stop, setMode)
  - src/unnamed/part_001             (orchestrator stop)

  JavaScript numbers are modelled as rationals (ℚ); timestamps as ℤ (Date.now() ms).
  A JS `Map` is modelled as an association list in which `set` prepends and `get`
  returns the first match; the code under scrutiny only reads these maps through
  `get`, so this representation is extensionally the JS Map behaviour.
  Fallible sends are modelled by explicit success oracles; thrown exceptions by an
  explicit outcome where the control flow depends on them.
-/
import Mathlib

set_option maxRecDepth 8192

namespace TvsRocks

/-- JS `Map.prototype.get`: first (most recent) binding for the key. -/
def mapGetA {α : Type} (m : List (String × α)) (k : String) : Option α :=
  (m.find? (fun p => p.1 == k)).map (fun p => p.2)

/-- JS `Map.prototype.set`: the new binding shadows any older one. -/
def mapSetA {α : Type} (m : List (String × α)) (k : String) (v : α) : List (String × α) :=
  (k, v) :: m

-- ───────────────────────── format.js ─────────────────────────

/-- Left-pads a digit string with zeros to the requested width. -/
def padZeros (len : Nat) (s : String) : String :=
  String.mk (List.replicate (len - s.length) '0') ++ s

/-- `Number.prototype.toFixed(digits)`: fixed-point decimal rendering
(round half away from zero on the magnitude). -/
def toFixed (digits : Nat) (q : ℚ) : String :=
  let p : ℤ := (10 : ℤ) ^ digits
  let n : ℤ := ⌊|q| * (p : ℚ) + 1/2⌋
  let sign : String := if q < 0 ∧ n ≠ 0 then "-" else ""
  if digits = 0 then sign ++ toString (n / p)
  else sign ++ toString (n / p) ++ "." ++ padZeros digits (toString (n % p).toNat)

/-- The `.replace(/\.0$/, "")` step of `formatNum`. -/
def stripTrailingZero (s : String) : String :=
  if s.endsWith ".0" then s.dropRight 2 else s

/-- `Math.round`: round half up. -/
def jsRound (q : ℚ) : ℤ := ⌊q + 1/2⌋

/-- `formatNum` from format.js. `none` stands for JS null/undefined; ℚ has no NaN.
The final branch renders a plain number the way JS `String(n)` shows an integer,
and a fixed two-decimal rendering otherwise. -/
def formatNum (n : Option ℚ) : String :=
  match n with
  | none => "-"
  | some v =>
    if 1000000000 ≤ v then stripTrailingZero (toFixed 1 (v / 1000000000)) ++ "B"
    else if 1000000 ≤ v then stripTrailingZero (toFixed 1 (v / 1000000)) ++ "M"
    else if 1000 ≤ v then toString (jsRound (v / 1000)) ++ "K"
    else if v.den = 1 then toString v.num else toFixed 2 v

-- ───────────────────────── stock.js data model ─────────────────────────

/-- A premarket row after `TvScanner.mapRow`. `Option` marks fields the validator
may find missing; `premarket_change`, `premarket_volume` are required numbers. -/
structure Stock where
  symbol : String
  premarket_change : ℚ
  premarket_volume : ℚ
  float_shares_outstanding : Option ℚ
  premarket_close : Option ℚ
deriving DecidableEq

/-- `validateStockData` from validation.js: requires a non-blank symbol and numeric
(present, non-NaN) `premarket_change`, `float_shares_outstanding`,
`premarket_volume`; the numeric checks on the ℚ-typed fields hold by typing. -/
def validateStockData (s : Stock) : Bool :=
  !(s.symbol.data.all (fun c => c.isWhitespace)) && s.float_shares_outstanding.isSome

/-- `isValidFloat` from stock.js: float is null or at most 15M. -/
def isValidFloat (s : Stock) : Bool :=
  match s.float_shares_outstanding with
  | none => true
  | some f => decide (f ≤ 15000000)

/-- `shouldSendNotifications` from stock.js. -/
def shouldSendNotifications (isFirstScan sendOnStartup : Bool) (newStocksCount : Nat) : Bool :=
  decide (0 < newStocksCount) && (sendOnStartup || !isFirstScan)

/-- The per-candidate alert condition in `processStockData`:
never seen before, or current change at least last reported + step. -/
def shouldAlert (lastReportedChanges : List (String × ℚ)) (step : ℚ) (stock : Stock) : Bool :=
  match mapGetA lastReportedChanges stock.symbol with
  | none => true
  | some prevChange => decide (prevChange + step ≤ stock.premarket_change)

/-- The components computed by `createStockMessage` before they are joined. -/
structure StockMessage where
  stepTag : String
  emoji : String
  symbol : String
  priceStr : String
  changeStr : String
  changeSuffix : String
  floatStr : String
  volStr : String
  dollarVolStr : String
deriving DecidableEq

/-- `createStockMessage` from format.js, as its computed components.
`stepTag` is the `[STEP #n] ` marker (source variable `stepPrefix`), emitted only
when the `count` argument exceeds 1; the call in stock.js omits `count`, so the
default 1 applies there. -/
def mkStockMessage (stock : Stock) (isUpdate : Bool) (prevChange : Option ℚ)
    (count : Nat) : StockMessage :=
  { stepTag := if 1 < count then "[STEP #" ++ toString count ++ "] " else ""
    emoji := if isUpdate then "📈" else "🚀"
    symbol := stock.symbol
    priceStr :=
      match stock.premarket_close with
      | none => "-"
      | some c => "$" ++ toFixed 2 c
    changeStr := toFixed 2 stock.premarket_change ++ "%"
    changeSuffix :=
      match isUpdate, prevChange with
      | true, some p => " (was " ++ toFixed 2 p ++ "%)"
      | _, _ => ""
    floatStr := formatNum stock.float_shares_outstanding
    volStr := formatNum (some stock.premarket_volume)
    dollarVolStr :=
      let dollarVolRaw := stock.premarket_volume * (stock.premarket_close.getD 0)
      if 0 < dollarVolRaw then "$" ++ formatNum (some dollarVolRaw) else "-" }

/-- The joined message string returned by `createStockMessage`. -/
def renderStockMessage (m : StockMessage) : String :=
  String.intercalate "\n"
    [m.stepTag ++ m.emoji ++ " " ++ m.symbol,
     "• Price: " ++ m.priceStr,
     "• Change: " ++ m.changeStr ++ m.changeSuffix,
     "• Float: " ++ m.floatStr,
     "• Vol: " ++ m.volStr,
     "• $Dol-Vol$: " ++ m.dollarVolStr]

/-- `createStockMessage` from format.js (components joined). -/
def createStockMessage (stock : Stock) (isUpdate : Bool) (prevChange : Option ℚ)
    (count : Nat) : String :=
  renderStockMessage (mkStockMessage stock isUpdate prevChange count)

/-- `StockState` from stock.js. -/
structure StockState where
  lastReportedChanges : List (String × ℚ)
  isFirstScan : Bool
  sendOnStartup : Bool
deriving DecidableEq

/-- One attempted notification: the arguments of the `sendMessage` call in
`processStockData` together with the transport outcome. -/
structure Alert where
  stock : Stock
  prevChange : Option ℚ
  message : StockMessage
  success : Bool
deriving DecidableEq

/-- The `alertsToSend` list built by the candidate loop of `processStockData`:
rows passing validation and the float gate whose alert condition holds, each
paired with the previously reported change. -/
def alertsFor (m : List (String × ℚ)) (step : ℚ) (stocks : List Stock) :
    List (Stock × Option ℚ) :=
  (stocks.filter (fun s => validateStockData s && isValidFloat s && shouldAlert m step s)).map
    (fun s => (s, mapGetA m s.symbol))

/-- `processStockData` from stock.js. The data fetch and response validation are
abstracted into `fetchResult` (a thrown `TradingViewError` or rows already mapped
through `mapRow`); `sendOk` is the Notifier success oracle (`result.success` of
`telegramService.sendMessage`, with a per-send exception folded into `success:
false` exactly as the source's inner catch does). `step` is
`config.premarketAlertStep`. Returns the updated state and the notifications
attempted this cycle. -/
def processStockData (fetchResult : Except Unit (List Stock)) (step : ℚ)
    (state : StockState) (sendOk : Stock → Bool) : StockState × List Alert :=
  match fetchResult with
  | .error _ => ({ state with isFirstScan := false }, [])
  | .ok rawStocks =>
    if rawStocks.isEmpty then (state, [])
    else
      let alertsToSend := alertsFor state.lastReportedChanges step rawStocks
      if alertsToSend.isEmpty then ({ state with isFirstScan := false }, [])
      else if !shouldSendNotifications state.isFirstScan state.sendOnStartup
          alertsToSend.length then
        let updatedChanges := alertsToSend.foldl
          (fun m p => mapSetA m p.1.symbol p.1.premarket_change) state.lastReportedChanges
        ({ state with lastReportedChanges := updatedChanges, isFirstScan := false }, [])
      else
        let results := alertsToSend.map (fun p =>
          { stock := p.1, prevChange := p.2,
            message := mkStockMessage p.1 p.2.isSome p.2 1,
            success := sendOk p.1 : Alert })
        let updatedChanges := results.foldl
          (fun m a => if a.success then mapSetA m a.stock.symbol a.stock.premarket_change else m)
          state.lastReportedChanges
        ({ state with lastReportedChanges := updatedChanges, isFirstScan := false }, results)

/-- A fixed valid candidate row used to drive single-symbol scan sequences. -/
def testStock (v : ℚ) : Stock :=
  { symbol := "NASDAQ:TEST", premarket_change := v, premarket_volume := 500000,
    float_shares_outstanding := some 1000000, premarket_close := some 5 }

/-- Drives `processStockData` over a sequence of scan cycles in which the one
tracked symbol reports the given value each cycle and every send succeeds. -/
def runSeq (step : ℚ) (st : StockState) : List ℚ → StockState × List Alert
  | [] => (st, [])
  | v :: rest =>
    let r := processStockData (.ok [testStock v]) step st (fun _ => true)
    let r2 := runSeq step r.1 rest
    (r2.1, r.2 ++ r2.2)

-- ───────────────────── part_005: Shadow Velocity scanner ─────────────────────

/-- A market row after `mapMarketRow`, restricted to the fields the scoring
functions read. `Option` fields model the JS null checks in `calcSVS`/`calcHSS`. -/
structure MarketStock where
  symbol : String
  close : Option ℚ
  change_from_open : Option ℚ
  value_traded : Option ℚ
  rvol_intraday_5m : Option ℚ
deriving DecidableEq

/-- `calcSVS` from the market scanner: gatekeeper rvol ≥ 5, change ≥ 2,
value traded ≥ $10M, price ≥ $2, null on any missing field. The score multiplies
by `Math.log10(value_traded)`; the logarithm is passed in as an abstract
primitive `log10`, since only the gate structure is at issue. -/
def calcSVS (log10 : ℚ → ℚ) (stock : MarketStock) : Option ℚ :=
  match stock.rvol_intraday_5m, stock.change_from_open, stock.value_traded, stock.close with
  | some rvol, some change, some value, some close =>
    if rvol < 5 then none
    else if change < 2 then none
    else if value < 10000000 then none
    else if close < 2 then none
    else some (change * rvol * log10 value)
  | _, _, _, _ => none

/-- `calcHSS` from the market scanner: gatekeeper change ≤ -2,
value traded ≥ $50M, null on any missing field. -/
def calcHSS (log10 : ℚ → ℚ) (stock : MarketStock) : Option ℚ :=
  match stock.change_from_open, stock.value_traded with
  | some change, some value =>
    if -2 < change then none
    else if value < 50000000 then none
    else some (|change| * (log10 value) ^ 2)
  | _, _ => none

/-- The scanner's mutable alert bookkeeping: `alertCooldowns` maps the string
key `symbol:type` to the time of the last successful alert; `alertCount` counts
successful alerts. -/
structure MarketAlertState where
  alertCooldowns : List (String × ℤ)
  alertCount : Nat
deriving DecidableEq

/-- `isCooldown` from the market scanner. A stored time of 0 is falsy in JS and
is treated as no cooldown, exactly as `cd && (now - cd < COOLDOWN_MS)` does. -/
def isCooldown (alertCooldowns : List (String × ℤ)) (cooldownMs : ℤ)
    (symbol alertType : String) (now : ℤ) : Bool :=
  match mapGetA alertCooldowns (symbol ++ ":" ++ alertType) with
  | none => false
  | some cd => !(cd == 0) && decide (now - cd < cooldownMs)

/-- `sendAlert` from the market scanner: the cooldown record and counter are
updated only when the Notifier reports success. -/
def sendAlert (success : Bool) (st : MarketAlertState) (symbol alertType : String)
    (now : ℤ) : MarketAlertState :=
  if success then
    { alertCooldowns := mapSetA st.alertCooldowns (symbol ++ ":" ++ alertType) now,
      alertCount := st.alertCount + 1 }
  else st

/-- An entry of the scanner's `prevStocks` cache. -/
structure PrevEntry where
  price : ℚ
  change : ℚ
  rvol : ℚ
  firstSeen : ℤ
  timestamp : ℤ
deriving DecidableEq

/-- A row of `alphaRanked`. Such rows passed `calcSVS`'s null gate, so the
numeric fields are plain numbers here. -/
structure AlphaStock where
  symbol : String
  close : ℚ
  change_from_open : ℚ
  rvol_intraday_5m : ℚ
deriving DecidableEq

/-- The scanner's trigger configuration (defaults: cooldown 300000 ms, RVOL
pump delta 5, dump threshold -2). -/
structure ScanCfg where
  cooldownMs : ℤ
  rvolPumpDelta : ℚ
  dumpThreshold : ℚ
deriving DecidableEq

/-- The trigger-detection body of `scanOnce` for one `alphaRanked` row:
NEW ENTRANT (absent from `prevStocks` or stale over 30 minutes) and VOLUME
SPIKE (RVOL grew by at least the pump delta) are gated by `isCooldown`;
TREND REVERSAL (price dropped below the dump threshold) is not. `success`
says whether the Notifier accepts a given (symbol, type) alert. Returns the
updated alert state and the trigger types sent for this row. -/
def processAlphaStock (cfg : ScanCfg) (prevStocks : List (String × PrevEntry))
    (success : String → String → Bool) (st : MarketAlertState) (now : ℤ)
    (stock : AlphaStock) : MarketAlertState × List String :=
  let prev := mapGetA prevStocks stock.symbol
  let newTrig : Bool :=
    match prev with
    | none => true
    | some p => decide (30 * 60000 < now - p.timestamp)
  let r1 :=
    if newTrig && !(isCooldown st.alertCooldowns cfg.cooldownMs stock.symbol "NEW" now)
    then (sendAlert (success stock.symbol "NEW") st stock.symbol "NEW" now, ["NEW"])
    else (st, [])
  let pumpTrig : Bool :=
    match prev with
    | none => false
    | some p => decide (cfg.rvolPumpDelta ≤ stock.rvol_intraday_5m - p.rvol)
  let r2 :=
    if pumpTrig && !(isCooldown r1.1.alertCooldowns cfg.cooldownMs stock.symbol "PUMP" now)
    then (sendAlert (success stock.symbol "PUMP") r1.1 stock.symbol "PUMP" now, ["PUMP"])
    else (r1.1, [])
  let dumpTrig : Bool :=
    match prev with
    | none => false
    | some p =>
      decide (0 < p.price) &&
        decide ((stock.close - p.price) / p.price * 100 ≤ cfg.dumpThreshold)
  let r3 :=
    if dumpTrig
    then (sendAlert (success stock.symbol "DUMP") r2.1 stock.symbol "DUMP" now, ["DUMP"])
    else (r2.1, [])
  (r3.1, r1.2 ++ r2.2 ++ r3.2)

-- ───────────────── catalystService.js: Catalyst Sniper ─────────────────

/-- A watchlist entry: gap, premarket volume and ranking score (the score uses
`Math.log10` and plays no role in the triggers). -/
structure WatchEntry where
  gap : ℚ
  preVol : ℚ
  score : ℚ
deriving DecidableEq

/-- A market row in the active phase, restricted to the fields `performScan`
reads. -/
structure MRow where
  symbol : String
  change_from_open : ℚ
deriving DecidableEq

/-- The outcome of `telegram.sendMessage`: resolved reporting success, resolved
reporting failure, or rejected (threw). -/
inductive SendOutcome
  | ok
  | failed
  | thrown
deriving DecidableEq

/-- The active-phase loop of `performScan` from catalystService.js: for each
market row, skip symbols already in `triggered` or absent from the watchlist;
FADE fires on gap > 4 and change-from-open < -0.5, else BOUNCE fires on
gap < -8 and change-from-open > 0.5. The row's symbol is added to `triggered`
after `sendMessage` returns, whether or not it reported success; a rejected
send propagates to `performScan`'s catch, aborting the rest of the loop.
Returns the updated `triggered` set and the (symbol, strategy) alerts
attempted. -/
def runActiveLoop (watchlist : List (String × WatchEntry)) (send : String → SendOutcome) :
    List MRow → List String → List String × List (String × String)
  | [], triggered => (triggered, [])
  | row :: rest, triggered =>
    if triggered.contains row.symbol then runActiveLoop watchlist send rest triggered
    else
      match mapGetA watchlist row.symbol with
      | none => runActiveLoop watchlist send rest triggered
      | some candidate =>
        if 4 < candidate.gap ∧ row.change_from_open < -(1/2) then
          match send row.symbol with
          | .thrown => (triggered, [(row.symbol, "FADE")])
          | _ =>
            let r := runActiveLoop watchlist send rest (row.symbol :: triggered)
            (r.1, (row.symbol, "FADE") :: r.2)
        else if candidate.gap < -8 ∧ (1/2) < row.change_from_open then
          match send row.symbol with
          | .thrown => (triggered, [(row.symbol, "BOUNCE")])
          | _ =>
            let r := runActiveLoop watchlist send rest (row.symbol :: triggered)
            (r.1, (row.symbol, "BOUNCE") :: r.2)
        else runActiveLoop watchlist send rest triggered

/-- The Catalyst service state (the timer handle carries no data and is
omitted). -/
structure CatalystState where
  isRunning : Bool
  isWatchlistOnly : Bool
  watchlist : List (String × WatchEntry)
  triggered : List String
deriving DecidableEq

/-- `stop` from catalystService.js: clears the timer and the running flag, and
clears both the watchlist and the triggered set. -/
def catalystStop (st : CatalystState) : CatalystState :=
  { st with isRunning := false, watchlist := [], triggered := [] }

/-- The state effect of `setMode` from catalystService.js: flips
`isWatchlistOnly` when the mode changes and otherwise leaves the state alone;
the watchlist and triggered set are untouched (the immediate `performScan` and
the re-scheduled interval are side effects outside this state). -/
def setModeState (st : CatalystState) (mode : String) : CatalystState :=
  let watchlistOnly := mode == "watchlist"
  if st.isWatchlistOnly != watchlistOnly then { st with isWatchlistOnly := watchlistOnly }
  else st

-- ───────────────── part_001: orchestrator ─────────────────

/-- How a managed service's `stop()` behaves: absent (the `if (service.stop)`
guard skips it), resolving normally, or rejecting. -/
inductive StopBehavior
  | noStopMethod
  | stops
  | throws
deriving DecidableEq

/-- A registered service as the orchestrator's `stop` sees it. -/
structure ManagedService where
  name : String
  isRunning : Bool
  stopBehavior : StopBehavior
deriving DecidableEq

/-- One service's branch of the orchestrator `stop` fan-out: `stop()` is called
when present, and an exception is caught and logged (returned as `some name`)
instead of propagating. -/
def runServiceStop (s : ManagedService) : ManagedService × Option String :=
  match s.stopBehavior with
  | .noStopMethod => (s, none)
  | .stops => ({ s with isRunning := false }, none)
  | .throws => (s, some s.name)

/-- The orchestrator's own timer state. -/
structure OrchState where
  timerActive : Bool
  isProcessing : Bool
deriving DecidableEq

/-- `stop` from the orchestrator (part_001): clears the poll timer and fans
`stop()` out to every registered service, awaiting all of them jointly, each
wrapped in its own try/catch so that one failure cannot prevent the others
from stopping. -/
def orchestratorStop (ost : OrchState) (services : List ManagedService) :
    OrchState × List (ManagedService × Option String) :=
  ({ ost with timerActive := false }, services.map runServiceStop)

-- ───────────────────────── theorems ─────────────────────────

theorem mapGetA_mapSetA_self {α : Type} (m : List (String × α)) (k : String) (v : α) :
    mapGetA (mapSetA m k v) k = some v := by
  simp [mapGetA, mapSetA, List.find?]

theorem mapGetA_mapSetA_ne {α : Type} (m : List (String × α)) (k k' : String) (v : α)
    (h : k' ≠ k) : mapGetA (mapSetA m k v) k' = mapGetA m k' := by
  have hb : (k == k') = false := beq_eq_false_iff_ne.mpr (fun he => h he.symm)
  simp [mapGetA, mapSetA, List.find?, hb]

theorem validateStockData_testStock (v : ℚ) : validateStockData (testStock v) = true := rfl

theorem isValidFloat_testStock (v : ℚ) : isValidFloat (testStock v) = true := by
  with_unfolding_all exact rfl

/-- One scan cycle of `processStockData` on a single valid candidate whose send
succeeds, with `sendOnStartup` set: it alerts exactly when the step condition
holds, recording the new value. -/
theorem processStockData_testStock (v step : ℚ) (m : List (String × ℚ)) (fs : Bool)
    (sendOk : Stock → Bool) (hsend : sendOk (testStock v) = true) :
    processStockData (.ok [testStock v]) step ⟨m, fs, true⟩ sendOk =
      if shouldAlert m step (testStock v) then
        (⟨mapSetA m "NASDAQ:TEST" v, false, true⟩,
         [{ stock := testStock v, prevChange := mapGetA m "NASDAQ:TEST",
            message := mkStockMessage (testStock v) (mapGetA m "NASDAQ:TEST").isSome
              (mapGetA m "NASDAQ:TEST") 1,
            success := true }])
      else (⟨m, false, true⟩, []) := by
  have hval := validateStockData_testStock v
  have hfl := isValidFloat_testStock v
  cases h : shouldAlert m step (testStock v) with
  | true =>
    simp only [processStockData, alertsFor, List.filter, hval, hfl, h, Bool.and_self,
      Bool.and_true, Bool.true_and, if_neg, List.isEmpty_cons, List.map_cons, List.map_nil,
      List.isEmpty_nil, Bool.false_eq_true, if_false, List.length_cons, List.length_nil,
      shouldSendNotifications, hsend, List.foldl_cons, List.foldl_nil, if_true]
    simp [testStock, shouldSendNotifications]
  | false =>
    simp only [processStockData, alertsFor, List.filter, hval, hfl, h, Bool.and_self,
      Bool.and_true, Bool.true_and, Bool.and_false, List.isEmpty_cons, List.map_nil,
      List.isEmpty_nil, if_true]
    simp

/-- Transitivity step for monotone chains. -/
theorem chain_le_of_le {a v : ℚ} {rest : List ℚ} (hav : a ≤ v)
    (h : List.Chain (fun x y => x ≤ y) v rest) : List.Chain (fun x y => x ≤ y) a rest := by
  cases rest with
  | nil => exact List.Chain.nil
  | cons w t =>
    rw [List.chain_cons] at h ⊢
    exact ⟨le_trans hav h.1, h.2⟩

/-- Invariant of the step engine on a monotone tail: the tracked symbol's recorded
value advances by at least `step` per notification and never exceeds the last
sampled value. -/
theorem runSeq_tracked_bound (step : ℚ) :
    ∀ (vals : List ℚ) (m : List (String × ℚ)) (fs : Bool) (a : ℚ),
      mapGetA m "NASDAQ:TEST" = some a →
      List.Chain (fun x y => x ≤ y) a vals →
      ∃ b, mapGetA (runSeq step ⟨m, fs, true⟩ vals).1.lastReportedChanges "NASDAQ:TEST"
          = some b ∧
        a + ((runSeq step ⟨m, fs, true⟩ vals).2.length : ℚ) * step ≤ b ∧
        b ≤ vals.getLastD a := by
  intro vals
  induction vals with
  | nil =>
    intro m fs a hm _
    exact ⟨a, by simpa [runSeq] using hm, by simp [runSeq], by simp [runSeq]⟩
  | cons v rest ih =>
    intro m fs a hm hchain
    rw [List.chain_cons] at hchain
    obtain ⟨hav, hrest⟩ := hchain
    have hcyc := processStockData_testStock v step m fs (fun _ => true) rfl
    cases hsa : shouldAlert m step (testStock v) with
    | true =>
      rw [hsa] at hcyc
      rw [if_pos rfl] at hcyc
      have hstepcond : a + step ≤ v := by
        have h2 := hsa
        rw [shouldAlert] at h2
        simp only [testStock] at h2
        rw [hm] at h2
        exact of_decide_eq_true h2
      obtain ⟨b, hb1, hb2, hb3⟩ :=
        ih (mapSetA m "NASDAQ:TEST" v) false v (mapGetA_mapSetA_self m _ v) hrest
      refine ⟨b, ?_, ?_, ?_⟩
      · simpa [runSeq, hcyc] using hb1
      · have hlen : ((runSeq step ⟨m, fs, true⟩ (v :: rest)).2.length : ℚ)
            = ((runSeq step ⟨mapSetA m "NASDAQ:TEST" v, false, true⟩ rest).2.length : ℚ) + 1 := by
          simp [runSeq, hcyc]
        rw [hlen]
        have hexp : (((runSeq step ⟨mapSetA m "NASDAQ:TEST" v, false, true⟩ rest).2.length : ℚ) + 1)
            * step
            = ((runSeq step ⟨mapSetA m "NASDAQ:TEST" v, false, true⟩ rest).2.length : ℚ) * step
              + step := by ring
        rw [hexp]
        linarith
      · rw [List.getLastD_cons]
        exact hb3
    | false =>
      rw [hsa] at hcyc
      rw [if_neg (by simp)] at hcyc
      obtain ⟨b, hb1, hb2, hb3⟩ := ih m false a hm (chain_le_of_le hav hrest)
      refine ⟨b, ?_, ?_, ?_⟩
      · simpa [runSeq, hcyc] using hb1
      · have hlen : ((runSeq step ⟨m, fs, true⟩ (v :: rest)).2.length : ℚ)
            = ((runSeq step ⟨m, false, true⟩ rest).2.length : ℚ) := by
          simp [runSeq, hcyc]
        rw [hlen]
        exact hb2
      · rw [List.getLastD_cons]
        cases rest with
        | nil =>
          simpa using le_trans hb3 hav
        | cons w t =>
          rw [List.getLastD_cons] at hb3 ⊢
          exact hb3

/-- Claim C1 counterexample: for the monotone value sequence [0, 3, 4] with step 2
and bootstrap not suppressed, the engine sends 2 notifications, but the claimed
formula floor((final - first)/step) + 1 gives 3. `lastValue` is set to the current
value rather than to the crossed grid level, so the count does depend on the
sampling resolution. -/
theorem c1_exact_floor_count_false :
    (0:ℚ) < 2 ∧ List.Chain (fun x y => x ≤ y) (0:ℚ) [3, 4] ∧
    (runSeq 2 ⟨[], true, true⟩ [0, 3, 4]).2.length = 2 ∧
    Rat.floor ((([(3:ℚ), 4].getLastD 0) - 0) / 2) + 1 = 3 ∧
    ¬ (((runSeq 2 ⟨[], true, true⟩ [0, 3, 4]).2.length : ℤ)
        = Rat.floor ((([(3:ℚ), 4].getLastD 0) - 0) / 2) + 1) := by
  refine ⟨by norm_num,
    List.Chain.cons (by norm_num) (List.Chain.cons (by norm_num) List.Chain.nil), ?_, ?_, ?_⟩
  · with_unfolding_all exact of_decide_eq_true rfl
  · with_unfolding_all exact of_decide_eq_true rfl
  · with_unfolding_all exact of_decide_eq_true rfl

/-- Claim C1 (amended): for a symbol whose value sequence is monotonically
non-decreasing across scan cycles (rows passing the static gates, bootstrap not
suppressed, sends succeeding), the number of notifications sent is at most
floor((finalValue - firstValue)/stepSize) plus one for the initial sighting; the
exact count depends on the sampling resolution because the engine records the
current value, not the crossed step level. -/
theorem c1_step_count_at_most_floor (step : ℚ) (hstep : 0 < step) (v0 : ℚ) (vals : List ℚ)
    (hmono : List.Chain (fun x y => x ≤ y) v0 vals) :
    ((runSeq step ⟨[], true, true⟩ (v0 :: vals)).2.length : ℤ) ≤
      Rat.floor ((vals.getLastD v0 - v0) / step) + 1 := by
  have hcyc := processStockData_testStock v0 step [] true (fun _ => true) rfl
  have hsa : shouldAlert [] step (testStock v0) = true := rfl
  rw [hsa] at hcyc
  rw [if_pos rfl] at hcyc
  obtain ⟨b, hb1, hb2, hb3⟩ := runSeq_tracked_bound step vals (mapSetA [] "NASDAQ:TEST" v0)
    false v0 (mapGetA_mapSetA_self _ _ _) hmono
  have hlen : (runSeq step ⟨[], true, true⟩ (v0 :: vals)).2.length
      = (runSeq step ⟨mapSetA [] "NASDAQ:TEST" v0, false, true⟩ vals).2.length + 1 := by
    simp [runSeq, hcyc]
  set n := (runSeq step ⟨mapSetA [] "NASDAQ:TEST" v0, false, true⟩ vals).2.length with hn
  have h1 : (n:ℚ) * step ≤ vals.getLastD v0 - v0 := by linarith
  have h2 : (n:ℚ) ≤ (vals.getLastD v0 - v0) / step := by
    rw [le_div_iff₀ hstep]
    exact h1
  have h3 : (n:ℤ) ≤ Rat.floor ((vals.getLastD v0 - v0) / step) := by
    rw [Rat.le_floor]
    push_cast
    exact h2
  rw [hlen]
  push_cast
  linarith

/-- Witness for `c1_step_count_at_most_floor` at step 1 and sequence [10, 11]. -/
theorem c1_step_count_at_most_floor_witness :
    (0:ℚ) < 1 ∧ List.Chain (fun x y => x ≤ y) (10:ℚ) [11] ∧
    ((runSeq 1 ⟨[], true, true⟩ (10 :: [11])).2.length : ℤ) ≤
      Rat.floor (([(11:ℚ)].getLastD 10 - 10) / 1) + 1 :=
  ⟨by norm_num, List.Chain.cons (by norm_num) List.Chain.nil,
    c1_step_count_at_most_floor 1 (by norm_num) 10 [11]
      (List.Chain.cons (by norm_num) List.Chain.nil)⟩

/-- Claim C2: a candidate is eligible iff its last reported value is absent or the
current value has advanced by at least the step from it; and for the value
sequence [10, 11, 10, 11] with step 1 and bootstrap suppressed, exactly one
notification is sent, at the first 11 — a value that decreases and then
re-crosses a previously alerted level does not re-alert. -/
theorem c2_no_realert_on_decline_then_recross :
    (∀ (m : List (String × ℚ)) (step : ℚ) (s : Stock),
      shouldAlert m step s = true ↔
        mapGetA m s.symbol = none ∨
          ∃ p, mapGetA m s.symbol = some p ∧ p + step ≤ s.premarket_change) ∧
    (runSeq 1 ⟨[], true, false⟩ [10]).2.length = 0 ∧
    (runSeq 1 ⟨[], true, false⟩ [10, 11]).2.length = 1 ∧
    (runSeq 1 ⟨[], true, false⟩ [10, 11, 10]).2.length = 1 ∧
    (runSeq 1 ⟨[], true, false⟩ [10, 11, 10, 11]).2.length = 1 := by
  refine ⟨?_, ?_, ?_, ?_, ?_⟩
  · intro m step s
    rw [shouldAlert]
    cases h : mapGetA m s.symbol with
    | none => simp
    | some p =>
      simp only [h, decide_eq_true_eq]
      constructor
      · intro hle
        exact Or.inr ⟨p, rfl, hle⟩
      · rintro (hc | ⟨p', hp', hle⟩)
        · exact absurd hc (by simp)
        · cases hp'
          exact hle
  · with_unfolding_all exact of_decide_eq_true rfl
  · with_unfolding_all exact of_decide_eq_true rfl
  · with_unfolding_all exact of_decide_eq_true rfl
  · with_unfolding_all exact of_decide_eq_true rfl

-- ───────────────────── processStockData branch lemmas ─────────────────────

theorem alertsFor_nil (m : List (String × ℚ)) (step : ℚ) : alertsFor m step [] = [] := rfl

theorem processStockData_error (step : ℚ) (st : StockState) (sendOk : Stock → Bool) :
    processStockData (.error ()) step st sendOk = ({ st with isFirstScan := false }, []) := rfl

theorem processStockData_ok_nil (step : ℚ) (st : StockState) (sendOk : Stock → Bool) :
    processStockData (.ok []) step st sendOk = (st, []) := rfl

theorem processStockData_no_alerts (step : ℚ) (st : StockState) (stocks : List Stock)
    (sendOk : Stock → Bool) (hne : stocks ≠ [])
    (hA : alertsFor st.lastReportedChanges step stocks = []) :
    processStockData (.ok stocks) step st sendOk = ({ st with isFirstScan := false }, []) := by
  simp [processStockData, hA, hne]

theorem processStockData_suppressed (step : ℚ) (st : StockState) (stocks : List Stock)
    (sendOk : Stock → Bool) (hfs : st.isFirstScan = true) (hsos : st.sendOnStartup = false)
    (hA : alertsFor st.lastReportedChanges step stocks ≠ []) :
    processStockData (.ok stocks) step st sendOk =
      ({ st with
          lastReportedChanges := ((alertsFor st.lastReportedChanges step stocks).foldl
            (fun m p => mapSetA m p.1.symbol p.1.premarket_change) st.lastReportedChanges),
          isFirstScan := false }, []) := by
  have hne : stocks ≠ [] := by
    intro h
    rw [h, alertsFor_nil] at hA
    exact hA rfl
  simp [processStockData, hne, hA, shouldSendNotifications, hfs, hsos]

theorem processStockData_sends (step : ℚ) (st : StockState) (stocks : List Stock)
    (sendOk : Stock → Bool) (hsend : st.sendOnStartup = true ∨ st.isFirstScan = false)
    (hA : alertsFor st.lastReportedChanges step stocks ≠ []) :
    processStockData (.ok stocks) step st sendOk =
      ({ st with
          lastReportedChanges := (((alertsFor st.lastReportedChanges step stocks).map (fun p =>
            { stock := p.1, prevChange := p.2,
              message := mkStockMessage p.1 p.2.isSome p.2 1,
              success := sendOk p.1 : Alert })).foldl
            (fun m a => if a.success then mapSetA m a.stock.symbol a.stock.premarket_change
              else m) st.lastReportedChanges),
          isFirstScan := false },
       (alertsFor st.lastReportedChanges step stocks).map (fun p =>
          { stock := p.1, prevChange := p.2,
            message := mkStockMessage p.1 p.2.isSome p.2 1,
            success := sendOk p.1 : Alert })) := by
  have hne : stocks ≠ [] := by
    intro h
    rw [h, alertsFor_nil] at hA
    exact hA rfl
  have hss : shouldSendNotifications st.isFirstScan st.sendOnStartup
      (alertsFor st.lastReportedChanges step stocks).length = true := by
    rw [shouldSendNotifications]
    have h1 : decide (0 < (alertsFor st.lastReportedChanges step stocks).length) = true := by
      simp [List.length_pos, hA]
    rw [h1]
    cases hsend with
    | inl h => rw [h]; rfl
    | inr h => rw [h]; simp
  simp [processStockData, hne, hA, hss]

-- ───────────────────── association-list fold lemmas ─────────────────────

theorem mapGetA_foldl_set_not_mem (l : List (String × ℚ)) :
    ∀ (m : List (String × ℚ)) (k : String), (∀ p ∈ l, p.1 ≠ k) →
      mapGetA (l.foldl (fun acc p => mapSetA acc p.1 p.2) m) k = mapGetA m k := by
  induction l with
  | nil => intro m k _; rfl
  | cons q t ih =>
    intro m k hk
    rw [List.foldl_cons]
    rw [ih (mapSetA m q.1 q.2) k (fun p hp => hk p (List.mem_cons_of_mem q hp))]
    exact mapGetA_mapSetA_ne m q.1 k q.2 (fun he => hk q (List.mem_cons_self q t) he.symm)

theorem mapGetA_foldl_set_mem (l : List (String × ℚ)) :
    ∀ (m : List (String × ℚ)) (k : String) (v : ℚ),
      (l.map Prod.fst).Nodup → (k, v) ∈ l →
      mapGetA (l.foldl (fun acc p => mapSetA acc p.1 p.2) m) k = some v := by
  induction l with
  | nil => intro m k v _ hmem; exact absurd hmem (List.not_mem_nil _)
  | cons q t ih =>
    intro m k v hnd hmem
    rw [List.map_cons, List.nodup_cons] at hnd
    rw [List.foldl_cons]
    rcases List.mem_cons.mp hmem with heq | hmem'
    · subst heq
      rw [mapGetA_foldl_set_not_mem t (mapSetA m k v) k ?hne]
      · exact mapGetA_mapSetA_self m k v
      case hne =>
        intro p hp he
        have hmm : p.1 ∈ t.map Prod.fst := List.mem_map_of_mem Prod.fst hp
        rw [he] at hmm
        exact hnd.1 hmm
    · exact ih (mapSetA m q.1 q.2) k v hnd.2 hmem'

theorem foldl_send_skip_all (l : List Alert) :
    ∀ (m : List (String × ℚ)), (∀ a ∈ l, a.success = false) →
      l.foldl (fun m a => if a.success then mapSetA m a.stock.symbol a.stock.premarket_change
        else m) m = m := by
  induction l with
  | nil => intro m _; rfl
  | cons a t ih =>
    intro m hf
    rw [List.foldl_cons, hf a (List.mem_cons_self a t)]
    simp only [if_false, Bool.false_eq_true]
    exact ih m (fun b hb => hf b (List.mem_cons_of_mem a hb))
end TvsRocks

namespace TvsRocks

/-- Claim C3: on the very first scan with `sendOnStartup` false nothing is sent;
`lastValue` baselines are recorded for exactly the eligible (would-have-alerted)
candidates, visible but non-eligible candidates are not baselined; and on any
scan that is not a suppressed first scan, every eligible valid candidate produces
a notification attempt. -/
theorem c3_bootstrap_baselines_only_eligible :
    (∀ (step : ℚ) (st : StockState) (stocks : List Stock) (sendOk : Stock → Bool),
      st.isFirstScan = true → st.sendOnStartup = false →
      (processStockData (.ok stocks) step st sendOk).2 = []) ∧
    (∀ (step : ℚ) (st : StockState) (stocks : List Stock) (sendOk : Stock → Bool) (s : Stock),
      st.isFirstScan = true → st.sendOnStartup = false →
      (stocks.map Stock.symbol).Nodup → s ∈ stocks →
      (validateStockData s && isValidFloat s &&
        shouldAlert st.lastReportedChanges step s) = true →
      mapGetA (processStockData (.ok stocks) step st sendOk).1.lastReportedChanges s.symbol
        = some s.premarket_change) ∧
    (∀ (step : ℚ) (st : StockState) (stocks : List Stock) (sendOk : Stock → Bool) (s : Stock),
      st.isFirstScan = true → st.sendOnStartup = false →
      (stocks.map Stock.symbol).Nodup → s ∈ stocks →
      (validateStockData s && isValidFloat s &&
        shouldAlert st.lastReportedChanges step s) = false →
      mapGetA (processStockData (.ok stocks) step st sendOk).1.lastReportedChanges s.symbol
        = mapGetA st.lastReportedChanges s.symbol) ∧
    (∀ (step : ℚ) (st : StockState) (stocks : List Stock) (sendOk : Stock → Bool) (s : Stock),
      (st.sendOnStartup = true ∨ st.isFirstScan = false) → s ∈ stocks →
      (validateStockData s && isValidFloat s &&
        shouldAlert st.lastReportedChanges step s) = true →
      ∃ a ∈ (processStockData (.ok stocks) step st sendOk).2, a.stock = s) := by
  refine ⟨?_, ?_, ?_, ?_⟩
  · intro step st stocks sendOk hfs hsos
    by_cases hstocks : stocks = []
    · rw [hstocks, processStockData_ok_nil]
    · by_cases hA : alertsFor st.lastReportedChanges step stocks = []
      · rw [processStockData_no_alerts step st stocks sendOk hstocks hA]
      · rw [processStockData_suppressed step st stocks sendOk hfs hsos hA]
  · intro step st stocks sendOk s hfs hsos hnd hmem hgate
    have hfilter : s ∈ stocks.filter
        (fun t => validateStockData t && isValidFloat t &&
          shouldAlert st.lastReportedChanges step t) :=
      List.mem_filter.mpr ⟨hmem, hgate⟩
    have hpair : (s, mapGetA st.lastReportedChanges s.symbol) ∈
        alertsFor st.lastReportedChanges step stocks := by
      rw [alertsFor]
      exact List.mem_map_of_mem _ hfilter
    have hA : alertsFor st.lastReportedChanges step stocks ≠ [] := by
      intro h
      rw [h] at hpair
      exact List.not_mem_nil _ hpair
    rw [processStockData_suppressed step st stocks sendOk hfs hsos hA]
    show mapGetA ((alertsFor st.lastReportedChanges step stocks).foldl
      (fun m p => mapSetA m p.1.symbol p.1.premarket_change) st.lastReportedChanges)
      s.symbol = some s.premarket_change
    rw [← List.foldl_map (fun (p : Stock × Option ℚ) => (p.1.symbol, p.1.premarket_change))
      (fun acc q => mapSetA acc q.1 q.2)]
    apply mapGetA_foldl_set_mem
    · have hkeys : ((alertsFor st.lastReportedChanges step stocks).map
          (fun p => (p.1.symbol, p.1.premarket_change))).map Prod.fst
          = (stocks.filter (fun t => validateStockData t && isValidFloat t &&
              shouldAlert st.lastReportedChanges step t)).map Stock.symbol := by
        rw [alertsFor, List.map_map, List.map_map]
        rfl
      rw [hkeys]
      exact hnd.sublist ((List.filter_sublist stocks).map Stock.symbol)
    · exact List.mem_map_of_mem _ hpair
  · intro step st stocks sendOk s hfs hsos hnd hmem hgate
    by_cases hA : alertsFor st.lastReportedChanges step stocks = []
    · have hstocks : stocks ≠ [] := List.ne_nil_of_mem hmem
      rw [processStockData_no_alerts step st stocks sendOk hstocks hA]
    · rw [processStockData_suppressed step st stocks sendOk hfs hsos hA]
      show mapGetA ((alertsFor st.lastReportedChanges step stocks).foldl
        (fun m p => mapSetA m p.1.symbol p.1.premarket_change) st.lastReportedChanges)
        s.symbol = mapGetA st.lastReportedChanges s.symbol
      rw [← List.foldl_map (fun (p : Stock × Option ℚ) => (p.1.symbol, p.1.premarket_change))
        (fun acc q => mapSetA acc q.1 q.2)]
      apply mapGetA_foldl_set_not_mem
      intro q hq
      obtain ⟨p, hpA, hqe⟩ := List.mem_map.mp hq
      rw [alertsFor] at hpA
      obtain ⟨t, htf, hpe⟩ := List.mem_map.mp hpA
      obtain ⟨htmem, htgate⟩ := List.mem_filter.mp htf
      rw [← hqe, ← hpe]
      intro he
      have hts : t = s := List.inj_on_of_nodup_map hnd htmem hmem he
      rw [hts, hgate] at htgate
      exact Bool.false_ne_true htgate
  · intro step st stocks sendOk s hsend hmem hgate
    have hfilter : s ∈ stocks.filter
        (fun t => validateStockData t && isValidFloat t &&
          shouldAlert st.lastReportedChanges step t) :=
      List.mem_filter.mpr ⟨hmem, hgate⟩
    have hpair : (s, mapGetA st.lastReportedChanges s.symbol) ∈
        alertsFor st.lastReportedChanges step stocks := by
      rw [alertsFor]
      exact List.mem_map_of_mem _ hfilter
    have hA : alertsFor st.lastReportedChanges step stocks ≠ [] := by
      intro h
      rw [h] at hpair
      exact List.not_mem_nil _ hpair
    rw [processStockData_sends step st stocks sendOk hsend hA]
    refine ⟨⟨s, mapGetA st.lastReportedChanges s.symbol,
      mkStockMessage s (mapGetA st.lastReportedChanges s.symbol).isSome
        (mapGetA st.lastReportedChanges s.symbol) 1, sendOk s⟩, ?_, rfl⟩
    exact List.mem_map_of_mem _ hpair

/-- Witness for `c3_bootstrap_baselines_only_eligible`: a suppressed first scan
over the single candidate `testStock 10` records its baseline silently. -/
theorem c3_bootstrap_baselines_only_eligible_witness :
    (validateStockData (testStock 10) && isValidFloat (testStock 10) &&
      shouldAlert [] 1 (testStock 10)) = true ∧
    (processStockData (.ok [testStock 10]) 1 ⟨[], true, false⟩ (fun _ => true)).2 = [] ∧
    mapGetA (processStockData (.ok [testStock 10]) 1
      ⟨[], true, false⟩ (fun _ => true)).1.lastReportedChanges "NASDAQ:TEST" = some 10 :=
  ⟨by with_unfolding_all exact of_decide_eq_true rfl,
   c3_bootstrap_baselines_only_eligible.1 1 ⟨[], true, false⟩ [testStock 10]
     (fun _ => true) rfl rfl,
   c3_bootstrap_baselines_only_eligible.2.1 1 ⟨[], true, false⟩ [testStock 10]
     (fun _ => true) (testStock 10) rfl rfl (by simp) (List.mem_singleton.mpr rfl)
     (by with_unfolding_all exact of_decide_eq_true rfl)⟩

end TvsRocks

namespace TvsRocks

theorem runActiveLoop_cons_skip_triggered (watchlist : List (String × WatchEntry))
    (send : String → SendOutcome) (row : MRow) (rest : List MRow) (triggered : List String)
    (hc : triggered.contains row.symbol = true) :
    runActiveLoop watchlist send (row :: rest) triggered =
      runActiveLoop watchlist send rest triggered := by
  simp only [runActiveLoop, hc, if_true]

theorem runActiveLoop_cons_skip_nowatch (watchlist : List (String × WatchEntry))
    (send : String → SendOutcome) (row : MRow) (rest : List MRow) (triggered : List String)
    (hc : triggered.contains row.symbol = false)
    (hw : mapGetA watchlist row.symbol = none) :
    runActiveLoop watchlist send (row :: rest) triggered =
      runActiveLoop watchlist send rest triggered := by
  simp only [runActiveLoop, hc, hw]
  simp

theorem runActiveLoop_cons_nofire (watchlist : List (String × WatchEntry))
    (send : String → SendOutcome) (row : MRow) (rest : List MRow) (triggered : List String)
    (candidate : WatchEntry)
    (hc : triggered.contains row.symbol = false)
    (hw : mapGetA watchlist row.symbol = some candidate)
    (hfade : ¬(4 < candidate.gap ∧ row.change_from_open < -(1/2)))
    (hbounce : ¬(candidate.gap < -8 ∧ (1/2) < row.change_from_open)) :
    runActiveLoop watchlist send (row :: rest) triggered =
      runActiveLoop watchlist send rest triggered := by
  simp only [runActiveLoop, hc, hw]
  rw [if_neg hfade, if_neg hbounce]
  simp

theorem runActiveLoop_cons_fade_thrown (watchlist : List (String × WatchEntry))
    (send : String → SendOutcome) (row : MRow) (rest : List MRow) (triggered : List String)
    (candidate : WatchEntry)
    (hc : triggered.contains row.symbol = false)
    (hw : mapGetA watchlist row.symbol = some candidate)
    (hfade : 4 < candidate.gap ∧ row.change_from_open < -(1/2))
    (hs : send row.symbol = SendOutcome.thrown) :
    runActiveLoop watchlist send (row :: rest) triggered =
      (triggered, [(row.symbol, "FADE")]) := by
  simp only [runActiveLoop, hc, hw]
  rw [if_pos hfade, hs]
  simp

theorem runActiveLoop_cons_fade_sent (watchlist : List (String × WatchEntry))
    (send : String → SendOutcome) (row : MRow) (rest : List MRow) (triggered : List String)
    (candidate : WatchEntry)
    (hc : triggered.contains row.symbol = false)
    (hw : mapGetA watchlist row.symbol = some candidate)
    (hfade : 4 < candidate.gap ∧ row.change_from_open < -(1/2))
    (hs : send row.symbol ≠ SendOutcome.thrown) :
    runActiveLoop watchlist send (row :: rest) triggered =
      ((runActiveLoop watchlist send rest (row.symbol :: triggered)).1,
       (row.symbol, "FADE") :: (runActiveLoop watchlist send rest (row.symbol :: triggered)).2) := by
  simp only [runActiveLoop, hc, hw]
  rw [if_pos hfade]
  cases hsend : send row.symbol with
  | thrown => exact absurd hsend hs
  | ok => simp
  | failed => simp

theorem runActiveLoop_cons_bounce_thrown (watchlist : List (String × WatchEntry))
    (send : String → SendOutcome) (row : MRow) (rest : List MRow) (triggered : List String)
    (candidate : WatchEntry)
    (hc : triggered.contains row.symbol = false)
    (hw : mapGetA watchlist row.symbol = some candidate)
    (hfade : ¬(4 < candidate.gap ∧ row.change_from_open < -(1/2)))
    (hbounce : candidate.gap < -8 ∧ (1/2) < row.change_from_open)
    (hs : send row.symbol = SendOutcome.thrown) :
    runActiveLoop watchlist send (row :: rest) triggered =
      (triggered, [(row.symbol, "BOUNCE")]) := by
  simp only [runActiveLoop, hc, hw]
  rw [if_neg hfade, if_pos hbounce, hs]
  simp

theorem runActiveLoop_cons_bounce_sent (watchlist : List (String × WatchEntry))
    (send : String → SendOutcome) (row : MRow) (rest : List MRow) (triggered : List String)
    (candidate : WatchEntry)
    (hc : triggered.contains row.symbol = false)
    (hw : mapGetA watchlist row.symbol = some candidate)
    (hfade : ¬(4 < candidate.gap ∧ row.change_from_open < -(1/2)))
    (hbounce : candidate.gap < -8 ∧ (1/2) < row.change_from_open)
    (hs : send row.symbol ≠ SendOutcome.thrown) :
    runActiveLoop watchlist send (row :: rest) triggered =
      ((runActiveLoop watchlist send rest (row.symbol :: triggered)).1,
       (row.symbol, "BOUNCE") :: (runActiveLoop watchlist send rest (row.symbol :: triggered)).2) := by
  simp only [runActiveLoop, hc, hw]
  rw [if_neg hfade, if_pos hbounce]
  cases hsend : send row.symbol with
  | thrown => exact absurd hsend hs
  | ok => simp
  | failed => simp

theorem ne_of_not_contains {l : List String} {a b : String}
    (h : l.contains a = false) (hb : b ∈ l) : a ≠ b := by
  intro he
  subst he
  have hel := List.elem_eq_true_of_mem hb
  rw [List.contains] at h
  rw [hel] at h
  exact absurd h (by simp)

/-- The triggered set only grows across the active-phase loop. -/
theorem runActiveLoop_triggered_mono (watchlist : List (String × WatchEntry))
    (send : String → SendOutcome) :
    ∀ (rows : List MRow) (triggered : List String) (x : String), x ∈ triggered →
      x ∈ (runActiveLoop watchlist send rows triggered).1 := by
  intro rows
  induction rows with
  | nil => intro trig x hx; exact hx
  | cons row rest ih =>
    intro trig x hx
    cases hc : trig.contains row.symbol with
    | true =>
      rw [runActiveLoop_cons_skip_triggered _ _ _ _ _ hc]
      exact ih trig x hx
    | false =>
      cases hw : mapGetA watchlist row.symbol with
      | none =>
        rw [runActiveLoop_cons_skip_nowatch _ _ _ _ _ hc hw]
        exact ih trig x hx
      | some candidate =>
        by_cases hfade : 4 < candidate.gap ∧ row.change_from_open < -(1/2)
        · by_cases hs : send row.symbol = SendOutcome.thrown
          · rw [runActiveLoop_cons_fade_thrown _ _ _ _ _ _ hc hw hfade hs]
            exact hx
          · rw [runActiveLoop_cons_fade_sent _ _ _ _ _ _ hc hw hfade hs]
            exact ih (row.symbol :: trig) x (List.mem_cons_of_mem _ hx)
        · by_cases hbounce : candidate.gap < -8 ∧ (1/2) < row.change_from_open
          · by_cases hs : send row.symbol = SendOutcome.thrown
            · rw [runActiveLoop_cons_bounce_thrown _ _ _ _ _ _ hc hw hfade hbounce hs]
              exact hx
            · rw [runActiveLoop_cons_bounce_sent _ _ _ _ _ _ hc hw hfade hbounce hs]
              exact ih (row.symbol :: trig) x (List.mem_cons_of_mem _ hx)
          · rw [runActiveLoop_cons_nofire _ _ _ _ _ _ hc hw hfade hbounce]
            exact ih trig x hx

/-- A symbol already in the triggered set never produces another alert. -/
theorem runActiveLoop_no_alert_of_triggered (watchlist : List (String × WatchEntry))
    (send : String → SendOutcome) :
    ∀ (rows : List MRow) (triggered : List String) (sym str : String), sym ∈ triggered →
      (sym, str) ∉ (runActiveLoop watchlist send rows triggered).2 := by
  intro rows
  induction rows with
  | nil => intro trig sym str _ hmem; exact List.not_mem_nil _ hmem
  | cons row rest ih =>
    intro trig sym str hx
    cases hc : trig.contains row.symbol with
    | true =>
      rw [runActiveLoop_cons_skip_triggered _ _ _ _ _ hc]
      exact ih trig sym str hx
    | false =>
      have hne : row.symbol ≠ sym := ne_of_not_contains hc hx
      cases hw : mapGetA watchlist row.symbol with
      | none =>
        rw [runActiveLoop_cons_skip_nowatch _ _ _ _ _ hc hw]
        exact ih trig sym str hx
      | some candidate =>
        by_cases hfade : 4 < candidate.gap ∧ row.change_from_open < -(1/2)
        · by_cases hs : send row.symbol = SendOutcome.thrown
          · rw [runActiveLoop_cons_fade_thrown _ _ _ _ _ _ hc hw hfade hs]
            intro hmem
            exact hne (congrArg Prod.fst (List.mem_singleton.mp hmem)).symm
          · rw [runActiveLoop_cons_fade_sent _ _ _ _ _ _ hc hw hfade hs]
            intro hmem
            rcases List.mem_cons.mp hmem with he | hm
            · exact hne (congrArg Prod.fst he).symm
            · exact ih (row.symbol :: trig) sym str (List.mem_cons_of_mem _ hx) hm
        · by_cases hbounce : candidate.gap < -8 ∧ (1/2) < row.change_from_open
          · by_cases hs : send row.symbol = SendOutcome.thrown
            · rw [runActiveLoop_cons_bounce_thrown _ _ _ _ _ _ hc hw hfade hbounce hs]
              intro hmem
              exact hne (congrArg Prod.fst (List.mem_singleton.mp hmem)).symm
            · rw [runActiveLoop_cons_bounce_sent _ _ _ _ _ _ hc hw hfade hbounce hs]
              intro hmem
              rcases List.mem_cons.mp hmem with he | hm
              · exact hne (congrArg Prod.fst he).symm
              · exact ih (row.symbol :: trig) sym str (List.mem_cons_of_mem _ hx) hm
          · rw [runActiveLoop_cons_nofire _ _ _ _ _ _ hc hw hfade hbounce]
            exact ih trig sym str hx

/-- Every alerted symbol either threw on send or ends up in the triggered set. -/
theorem runActiveLoop_alert_recorded (watchlist : List (String × WatchEntry))
    (send : String → SendOutcome) :
    ∀ (rows : List MRow) (triggered : List String) (sym str : String),
      (sym, str) ∈ (runActiveLoop watchlist send rows triggered).2 →
      send sym = SendOutcome.thrown ∨ sym ∈ (runActiveLoop watchlist send rows triggered).1 := by
  intro rows
  induction rows with
  | nil => intro trig sym str hmem; exact absurd hmem (List.not_mem_nil _)
  | cons row rest ih =>
    intro trig sym str hmem
    cases hc : trig.contains row.symbol with
    | true =>
      rw [runActiveLoop_cons_skip_triggered _ _ _ _ _ hc] at hmem ⊢
      exact ih trig sym str hmem
    | false =>
      cases hw : mapGetA watchlist row.symbol with
      | none =>
        rw [runActiveLoop_cons_skip_nowatch _ _ _ _ _ hc hw] at hmem ⊢
        exact ih trig sym str hmem
      | some candidate =>
        by_cases hfade : 4 < candidate.gap ∧ row.change_from_open < -(1/2)
        · by_cases hs : send row.symbol = SendOutcome.thrown
          · rw [runActiveLoop_cons_fade_thrown _ _ _ _ _ _ hc hw hfade hs] at hmem ⊢
            have hes : sym = row.symbol := by
              have he := List.mem_singleton.mp hmem
              injection he
            rw [hes]
            exact Or.inl hs
          · rw [runActiveLoop_cons_fade_sent _ _ _ _ _ _ hc hw hfade hs] at hmem ⊢
            rcases List.mem_cons.mp hmem with he | hm
            · have hes : sym = row.symbol := by injection he
              refine Or.inr ?_
              rw [hes]
              exact runActiveLoop_triggered_mono watchlist send rest (row.symbol :: trig)
                row.symbol (List.mem_cons_self _ _)
            · exact ih (row.symbol :: trig) sym str hm
        · by_cases hbounce : candidate.gap < -8 ∧ (1/2) < row.change_from_open
          · by_cases hs : send row.symbol = SendOutcome.thrown
            · rw [runActiveLoop_cons_bounce_thrown _ _ _ _ _ _ hc hw hfade hbounce hs] at hmem ⊢
              have hes : sym = row.symbol := by
                have he := List.mem_singleton.mp hmem
                injection he
              rw [hes]
              exact Or.inl hs
            · rw [runActiveLoop_cons_bounce_sent _ _ _ _ _ _ hc hw hfade hbounce hs] at hmem ⊢
              rcases List.mem_cons.mp hmem with he | hm
              · have hes : sym = row.symbol := by injection he
                refine Or.inr ?_
                rw [hes]
                exact runActiveLoop_triggered_mono watchlist send rest (row.symbol :: trig)
                  row.symbol (List.mem_cons_self _ _)
              · exact ih (row.symbol :: trig) sym str hm
          · rw [runActiveLoop_cons_nofire _ _ _ _ _ _ hc hw hfade hbounce] at hmem ⊢
            exact ih trig sym str hmem

/-- When every send rejects, the triggered set is left unchanged. -/
theorem runActiveLoop_thrown_unchanged (watchlist : List (String × WatchEntry))
    (send : String → SendOutcome) (hthrow : ∀ x, send x = SendOutcome.thrown) :
    ∀ (rows : List MRow) (triggered : List String),
      (runActiveLoop watchlist send rows triggered).1 = triggered := by
  intro rows
  induction rows with
  | nil => intro trig; rfl
  | cons row rest ih =>
    intro trig
    cases hc : trig.contains row.symbol with
    | true =>
      rw [runActiveLoop_cons_skip_triggered _ _ _ _ _ hc]
      exact ih trig
    | false =>
      cases hw : mapGetA watchlist row.symbol with
      | none =>
        rw [runActiveLoop_cons_skip_nowatch _ _ _ _ _ hc hw]
        exact ih trig
      | some candidate =>
        by_cases hfade : 4 < candidate.gap ∧ row.change_from_open < -(1/2)
        · rw [runActiveLoop_cons_fade_thrown _ _ _ _ _ _ hc hw hfade (hthrow row.symbol)]
        · by_cases hbounce : candidate.gap < -8 ∧ (1/2) < row.change_from_open
          · rw [runActiveLoop_cons_bounce_thrown _ _ _ _ _ _ hc hw hfade hbounce
              (hthrow row.symbol)]
          · rw [runActiveLoop_cons_nofire _ _ _ _ _ _ hc hw hfade hbounce]
            exact ih trig

/-- Claim C7: orchestrator `stop` cancels the poll timer and issues `stop()` to
every registered worker; a worker whose `stop()` throws has its exception caught
and logged, and every worker whose `stop()` resolves still reaches the stopped
state regardless of the others. -/
theorem c7_concurrent_stop_isolation (ost : OrchState) (services : List ManagedService) :
    (orchestratorStop ost services).1.timerActive = false ∧
    (orchestratorStop ost services).2 = services.map runServiceStop ∧
    (∀ s ∈ services, s.stopBehavior = StopBehavior.stops →
      ({ s with isRunning := false }, (none : Option String))
        ∈ (orchestratorStop ost services).2) ∧
    (∀ s ∈ services, s.stopBehavior = StopBehavior.throws →
      (s, some s.name) ∈ (orchestratorStop ost services).2) := by
  refine ⟨rfl, rfl, ?_, ?_⟩
  · intro s hs hb
    have hrun : runServiceStop s = ({ s with isRunning := false }, none) := by
      rw [runServiceStop, hb]
    rw [← hrun]
    exact List.mem_map_of_mem runServiceStop hs
  · intro s hs hb
    have hrun : runServiceStop s = (s, some s.name) := by
      rw [runServiceStop, hb]
    rw [← hrun]
    exact List.mem_map_of_mem runServiceStop hs

/-- Witness for `c7_concurrent_stop_isolation`: with worker A throwing and
worker B stopping normally, B still reaches the stopped state and A's error is
logged. -/
theorem c7_concurrent_stop_isolation_witness :
    (orchestratorStop ⟨true, false⟩
      [⟨"A", true, StopBehavior.throws⟩, ⟨"B", true, StopBehavior.stops⟩]).1.timerActive
        = false ∧
    (⟨"B", false, StopBehavior.stops⟩, (none : Option String))
      ∈ (orchestratorStop ⟨true, false⟩
        [⟨"A", true, StopBehavior.throws⟩, ⟨"B", true, StopBehavior.stops⟩]).2 ∧
    (⟨"A", true, StopBehavior.throws⟩, some "A")
      ∈ (orchestratorStop ⟨true, false⟩
        [⟨"A", true, StopBehavior.throws⟩, ⟨"B", true, StopBehavior.stops⟩]).2 :=
  ⟨(c7_concurrent_stop_isolation ⟨true, false⟩ _).1,
   (c7_concurrent_stop_isolation ⟨true, false⟩ _).2.2.1 ⟨"B", true, StopBehavior.stops⟩
     (by simp) rfl,
   (c7_concurrent_stop_isolation ⟨true, false⟩ _).2.2.2 ⟨"A", true, StopBehavior.throws⟩
     (by simp) rfl⟩

/-- Claim C8: in the watchlist transition engine a symbol triggers at most once
per watchlist lifetime: a symbol in the triggered set never produces another
fade or bounce alert; every alerted symbol whose send returned is in the
triggered set afterwards (so later scans skip it); `setMode` clears neither the
watchlist nor the triggered set; only `stop` clears both. -/
theorem c8_trigger_once_per_lifetime :
    (∀ (watchlist : List (String × WatchEntry)) (send : String → SendOutcome)
        (rows : List MRow) (triggered : List String) (sym str : String),
      sym ∈ triggered →
      (sym, str) ∉ (runActiveLoop watchlist send rows triggered).2) ∧
    (∀ (watchlist : List (String × WatchEntry)) (send : String → SendOutcome)
        (rows : List MRow) (triggered : List String) (sym str : String),
      (sym, str) ∈ (runActiveLoop watchlist send rows triggered).2 →
      send sym = SendOutcome.thrown ∨ sym ∈ (runActiveLoop watchlist send rows triggered).1) ∧
    (∀ (st : CatalystState) (mode : String),
      (setModeState st mode).watchlist = st.watchlist ∧
      (setModeState st mode).triggered = st.triggered) ∧
    (∀ st : CatalystState, (catalystStop st).watchlist = [] ∧
      (catalystStop st).triggered = [] ∧ (catalystStop st).isRunning = false) := by
  refine ⟨?_, ?_, ?_, ?_⟩
  · intro watchlist send rows triggered sym str hx
    exact runActiveLoop_no_alert_of_triggered watchlist send rows triggered sym str hx
  · intro watchlist send rows triggered sym str hmem
    exact runActiveLoop_alert_recorded watchlist send rows triggered sym str hmem
  · intro st mode
    rw [setModeState]
    by_cases h : (st.isWatchlistOnly != (mode == "watchlist")) = true
    · rw [if_pos h]
      exact ⟨rfl, rfl⟩
    · rw [if_neg h]
      exact ⟨rfl, rfl⟩
  · intro st
    exact ⟨rfl, rfl, rfl⟩

/-- Witness for `c8_trigger_once_per_lifetime`: a symbol already triggered does
not re-alert even though its fade pattern matches. -/
theorem c8_trigger_once_per_lifetime_witness :
    "NASDAQ:AAA" ∈ ["NASDAQ:AAA"] ∧
    ("NASDAQ:AAA", "FADE") ∉ (runActiveLoop [("NASDAQ:AAA", ⟨5, 1000000, 0⟩)]
      (fun _ => SendOutcome.ok) [⟨"NASDAQ:AAA", -1⟩] ["NASDAQ:AAA"]).2 :=
  ⟨List.mem_singleton.mpr rfl,
   c8_trigger_once_per_lifetime.1 [("NASDAQ:AAA", ⟨5, 1000000, 0⟩)]
     (fun _ => SendOutcome.ok) [⟨"NASDAQ:AAA", -1⟩] ["NASDAQ:AAA"] "NASDAQ:AAA" "FADE"
     (List.mem_singleton.mpr rfl)⟩

/-- Claim C4 counterexample: in the catalyst scanner, a FADE alert whose
`sendMessage` resolves with success = false still adds the symbol to the
TriggeredSet — the dedup state is updated despite the failed send, contrary to
the claim. -/
theorem c4_catalyst_failed_send_still_marks :
    (runActiveLoop [("NASDAQ:AAA", ⟨5, 1000000, 0⟩)] (fun _ => SendOutcome.failed)
      [⟨"NASDAQ:AAA", -1⟩] []).2 = [("NASDAQ:AAA", "FADE")] ∧
    (runActiveLoop [("NASDAQ:AAA", ⟨5, 1000000, 0⟩)] (fun _ => SendOutcome.failed)
      [⟨"NASDAQ:AAA", -1⟩] []).1 = ["NASDAQ:AAA"] := by
  constructor
  · with_unfolding_all exact of_decide_eq_true rfl
  · with_unfolding_all exact of_decide_eq_true rfl

/-- Claim C4 (amended): the step-alert `lastValue` map and the market scanner's
cooldown records are updated only when the Notifier reports success = true, but
the catalyst TriggeredSet is updated whenever `sendMessage` returns — success
or failure alike; only a send that throws leaves it unchanged. -/
theorem c4_dedup_update_on_success :
    (∀ (fetchResult : Except Unit (List Stock)) (step : ℚ) (st : StockState)
        (sendOk : Stock → Bool),
      (∀ x, sendOk x = false) → (st.sendOnStartup = true ∨ st.isFirstScan = false) →
      (processStockData fetchResult step st sendOk).1.lastReportedChanges
        = st.lastReportedChanges) ∧
    (∀ (st : MarketAlertState) (symbol alertType : String) (now : ℤ),
      sendAlert false st symbol alertType now = st) ∧
    (∀ (watchlist : List (String × WatchEntry)) (send : String → SendOutcome)
        (rows : List MRow) (triggered : List String),
      (∀ x, send x = SendOutcome.thrown) →
      (runActiveLoop watchlist send rows triggered).1 = triggered) ∧
    (∀ (watchlist : List (String × WatchEntry)) (send : String → SendOutcome)
        (rows : List MRow) (triggered : List String) (sym str : String),
      (sym, str) ∈ (runActiveLoop watchlist send rows triggered).2 →
      send sym ≠ SendOutcome.thrown →
      sym ∈ (runActiveLoop watchlist send rows triggered).1) := by
  refine ⟨?_, ?_, ?_, ?_⟩
  · intro fetchResult step st sendOk hfail hsend
    match fetchResult with
    | .error e =>
      rw [processStockData_error]
    | .ok stocks =>
      by_cases hstocks : stocks = []
      · rw [hstocks, processStockData_ok_nil]
      · by_cases hA : alertsFor st.lastReportedChanges step stocks = []
        · rw [processStockData_no_alerts step st stocks sendOk hstocks hA]
        · rw [processStockData_sends step st stocks sendOk hsend hA]
          show ((alertsFor st.lastReportedChanges step stocks).map (fun p =>
              { stock := p.1, prevChange := p.2,
                message := mkStockMessage p.1 p.2.isSome p.2 1,
                success := sendOk p.1 : Alert })).foldl
              (fun m a => if a.success then mapSetA m a.stock.symbol a.stock.premarket_change
                else m) st.lastReportedChanges = st.lastReportedChanges
          apply foldl_send_skip_all
          intro a ha
          obtain ⟨p, hp, hpe⟩ := List.mem_map.mp ha
          rw [← hpe]
          exact hfail p.1
  · intro st symbol alertType now
    rfl
  · intro watchlist send rows triggered hthrow
    exact runActiveLoop_thrown_unchanged watchlist send hthrow rows triggered
  · intro watchlist send rows triggered sym str hmem hns
    rcases runActiveLoop_alert_recorded watchlist send rows triggered sym str hmem with h | h
    · exact absurd h hns
    · exact h

/-- Witness for `c4_dedup_update_on_success`: a failing send leaves the
step-alert map unchanged. -/
theorem c4_dedup_update_on_success_witness :
    ((fun _ : Stock => false) (testStock 10) = false) ∧
    (processStockData (.ok [testStock 10]) 1 ⟨[], false, true⟩
      (fun _ => false)).1.lastReportedChanges = [] :=
  ⟨rfl,
   c4_dedup_update_on_success.1 (.ok [testStock 10]) 1 ⟨[], false, true⟩
     (fun _ => false) (fun _ => rfl) (Or.inl rfl)⟩

/-- Claim C5: the ScoreUp and ScoreDown gates are mutually exclusive — a row
scored by `calcSVS` is null under `calcHSS` and vice versa, for any value of the
log10 primitive, so no symbol can appear in both ranked lists of one cycle. -/
theorem c5_gatekeeper_exclusivity (log10 : ℚ → ℚ) (stock : MarketStock) :
    ((calcSVS log10 stock).isSome → calcHSS log10 stock = none) ∧
    ((calcHSS log10 stock).isSome → calcSVS log10 stock = none) := by
  obtain ⟨sym, close, change, value, rvol⟩ := stock
  constructor
  · intro h
    rcases rvol with _ | rvol
    · simp [calcSVS] at h
    rcases change with _ | change
    · simp [calcSVS] at h
    rcases value with _ | value
    · simp [calcSVS] at h
    rcases close with _ | close
    · simp [calcSVS] at h
    simp only [calcSVS] at h
    split_ifs at h with h1 h2 h3 h4
    · simp at h
    · simp at h
    · simp at h
    · simp at h
    · simp only [calcHSS]
      rw [if_pos (by linarith)]
  · intro h
    rcases change with _ | change
    · simp [calcHSS] at h
    rcases value with _ | value
    · simp [calcHSS] at h
    simp only [calcHSS] at h
    split_ifs at h with h1 h2
    · simp at h
    · simp at h
    · rcases rvol with _ | rvol
      · rfl
      rcases close with _ | close
      · rfl
      simp only [calcSVS]
      by_cases hr : rvol < 5
      · rw [if_pos hr]
      · rw [if_neg hr, if_pos (by linarith)]

/-- Witness for `c5_gatekeeper_exclusivity`: a row passing all ScoreUp gates is
null under ScoreDown. -/
theorem c5_gatekeeper_exclusivity_witness :
    (calcSVS (fun _ => 1) ⟨"NASDAQ:AAA", some 5, some 3, some 20000000, some 6⟩).isSome
      = true ∧
    calcHSS (fun _ => 1) ⟨"NASDAQ:AAA", some 5, some 3, some 20000000, some 6⟩ = none :=
  ⟨by with_unfolding_all exact of_decide_eq_true rfl,
   (c5_gatekeeper_exclusivity (fun _ => 1)
     ⟨"NASDAQ:AAA", some 5, some 3, some 20000000, some 6⟩).1
     (by with_unfolding_all exact of_decide_eq_true rfl)⟩

theorem append_right_ne (s : String) {a b : String} (h : a ≠ b) : s ++ a ≠ s ++ b := by
  intro he
  apply h
  have hd : (s ++ a).data = (s ++ b).data := by rw [he]
  rw [String.data_append, String.data_append] at hd
  exact String.ext (List.append_cancel_left hd)

/-- Recording one alert type's cooldown does not affect another type's cooldown
lookup for the same symbol. -/
theorem isCooldown_sendAlert_other (b : Bool) (st : MarketAlertState) (sym t1 t2 : String)
    (now now2 cdms : ℤ) (h : t2 ≠ t1) :
    isCooldown (sendAlert b st sym t1 now).alertCooldowns cdms sym t2 now2 =
      isCooldown st.alertCooldowns cdms sym t2 now2 := by
  cases b with
  | false => rfl
  | true =>
    show isCooldown (mapSetA st.alertCooldowns (sym ++ ":" ++ t1) now) cdms sym t2 now2 = _
    rw [isCooldown, isCooldown, mapGetA_mapSetA_ne]
    exact append_right_ne (sym ++ ":") h

/-- NEW ENTRANT is suppressed while its (symbol, NEW) cooldown is within the
window. -/
theorem newEntrant_suppressed_within_cooldown (cfg : ScanCfg)
    (prevStocks : List (String × PrevEntry)) (success : String → String → Bool)
    (st : MarketAlertState) (now t0 : ℤ) (stock : AlphaStock)
    (hcd : mapGetA st.alertCooldowns (stock.symbol ++ ":" ++ "NEW") = some t0)
    (ht0 : t0 ≠ 0) (hwin : now - t0 < cfg.cooldownMs) :
    "NEW" ∉ (processAlphaStock cfg prevStocks success st now stock).2 := by
  have hcool : isCooldown st.alertCooldowns cfg.cooldownMs stock.symbol "NEW" now = true := by
    simp only [isCooldown, hcd]
    rw [beq_eq_false_iff_ne.mpr ht0]
    simp [hwin]
  cases hprev : mapGetA prevStocks stock.symbol with
  | none =>
    simp only [processAlphaStock, hprev, hcool]
    split_ifs <;> simp_all
  | some p =>
    simp only [processAlphaStock, hprev, hcool]
    split_ifs <;> simp_all

/-- VOLUME SPIKE is suppressed while its (symbol, PUMP) cooldown is within the
window. -/
theorem pump_suppressed_within_cooldown (cfg : ScanCfg)
    (prevStocks : List (String × PrevEntry)) (success : String → String → Bool)
    (st : MarketAlertState) (now t0 : ℤ) (stock : AlphaStock)
    (hcd : mapGetA st.alertCooldowns (stock.symbol ++ ":" ++ "PUMP") = some t0)
    (ht0 : t0 ≠ 0) (hwin : now - t0 < cfg.cooldownMs) :
    "PUMP" ∉ (processAlphaStock cfg prevStocks success st now stock).2 := by
  have hcool : isCooldown st.alertCooldowns cfg.cooldownMs stock.symbol "PUMP" now = true := by
    simp only [isCooldown, hcd]
    rw [beq_eq_false_iff_ne.mpr ht0]
    simp [hwin]
  have hcool2 : ∀ b, isCooldown (sendAlert b st stock.symbol "NEW" now).alertCooldowns
      cfg.cooldownMs stock.symbol "PUMP" now = true := by
    intro b
    rw [isCooldown_sendAlert_other b st stock.symbol "NEW" "PUMP" now now cfg.cooldownMs
      (by decide)]
    exact hcool
  cases hprev : mapGetA prevStocks stock.symbol with
  | none =>
    simp only [processAlphaStock, hprev]
    split_ifs <;> simp_all
  | some p =>
    cases hsucc : success stock.symbol "NEW" with
    | false =>
      simp only [processAlphaStock, hprev, hsucc]
      split_ifs <;> simp_all
    | true =>
      simp only [processAlphaStock, hprev, hsucc]
      split_ifs <;> simp_all

/-- A NEW ENTRANT whose cooldown lies beyond the window alerts again. -/
theorem newEntrant_realerts_beyond_cooldown (cfg : ScanCfg)
    (prevStocks : List (String × PrevEntry)) (success : String → String → Bool)
    (st : MarketAlertState) (now t0 : ℤ) (stock : AlphaStock)
    (hprev : mapGetA prevStocks stock.symbol = none)
    (hcd : mapGetA st.alertCooldowns (stock.symbol ++ ":" ++ "NEW") = some t0)
    (hbeyond : cfg.cooldownMs ≤ now - t0) :
    "NEW" ∈ (processAlphaStock cfg prevStocks success st now stock).2 := by
  have hcool : isCooldown st.alertCooldowns cfg.cooldownMs stock.symbol "NEW" now = false := by
    simp only [isCooldown, hcd]
    rw [decide_eq_false (not_lt.mpr hbeyond)]
    simp
  simp only [processAlphaStock, hprev, hcool]
  simp

/-- A VOLUME SPIKE whose cooldown lies beyond the window alerts again. -/
theorem pump_realerts_beyond_cooldown (cfg : ScanCfg)
    (prevStocks : List (String × PrevEntry)) (success : String → String → Bool)
    (st : MarketAlertState) (now t0 : ℤ) (stock : AlphaStock) (p : PrevEntry)
    (hprev : mapGetA prevStocks stock.symbol = some p)
    (hdelta : cfg.rvolPumpDelta ≤ stock.rvol_intraday_5m - p.rvol)
    (hcd : mapGetA st.alertCooldowns (stock.symbol ++ ":" ++ "PUMP") = some t0)
    (hbeyond : cfg.cooldownMs ≤ now - t0) :
    "PUMP" ∈ (processAlphaStock cfg prevStocks success st now stock).2 := by
  have hcool : isCooldown st.alertCooldowns cfg.cooldownMs stock.symbol "PUMP" now = false := by
    simp only [isCooldown, hcd]
    rw [decide_eq_false (not_lt.mpr hbeyond)]
    simp
  have hcool2 : ∀ b, isCooldown (sendAlert b st stock.symbol "NEW" now).alertCooldowns
      cfg.cooldownMs stock.symbol "PUMP" now = false := by
    intro b
    rw [isCooldown_sendAlert_other b st stock.symbol "NEW" "PUMP" now now cfg.cooldownMs
      (by decide)]
    exact hcool
  cases hsucc : success stock.symbol "NEW" with
  | false =>
    simp only [processAlphaStock, hprev, hsucc]
    split_ifs <;> simp_all
  | true =>
    simp only [processAlphaStock, hprev, hsucc]
    split_ifs <;> simp_all

/-- A qualifying TREND REVERSAL always alerts, whatever the cooldown records
hold. -/
theorem dump_always_alerts (cfg : ScanCfg) (prevStocks : List (String × PrevEntry))
    (success : String → String → Bool) (st : MarketAlertState) (now : ℤ)
    (stock : AlphaStock) (p : PrevEntry)
    (hprev : mapGetA prevStocks stock.symbol = some p)
    (hp : 0 < p.price)
    (hdrop : (stock.close - p.price) / p.price * 100 ≤ cfg.dumpThreshold) :
    "DUMP" ∈ (processAlphaStock cfg prevStocks success st now stock).2 := by
  simp only [processAlphaStock, hprev]
  split_ifs <;> simp_all

/-- Claim C6: a NewEntrant or MetricSpike alert for a (symbol, trigger) pair
whose last successful alert lies within the cooldown window is suppressed; the
same pair beyond the window alerts again; Reversal (dump) alerts are never
suppressed by cooldown — every qualifying price drop alerts. (The cooldown
record holds exactly the last successful alert time, since `sendAlert` writes it
only on success.) -/
theorem c6_cooldown_window_behaviour :
    (∀ (cfg : ScanCfg) (prevStocks : List (String × PrevEntry))
        (success : String → String → Bool) (st : MarketAlertState) (now t0 : ℤ)
        (stock : AlphaStock),
      mapGetA st.alertCooldowns (stock.symbol ++ ":" ++ "NEW") = some t0 → t0 ≠ 0 →
      now - t0 < cfg.cooldownMs →
      "NEW" ∉ (processAlphaStock cfg prevStocks success st now stock).2) ∧
    (∀ (cfg : ScanCfg) (prevStocks : List (String × PrevEntry))
        (success : String → String → Bool) (st : MarketAlertState) (now t0 : ℤ)
        (stock : AlphaStock),
      mapGetA st.alertCooldowns (stock.symbol ++ ":" ++ "PUMP") = some t0 → t0 ≠ 0 →
      now - t0 < cfg.cooldownMs →
      "PUMP" ∉ (processAlphaStock cfg prevStocks success st now stock).2) ∧
    (∀ (cfg : ScanCfg) (prevStocks : List (String × PrevEntry))
        (success : String → String → Bool) (st : MarketAlertState) (now t0 : ℤ)
        (stock : AlphaStock),
      mapGetA prevStocks stock.symbol = none →
      mapGetA st.alertCooldowns (stock.symbol ++ ":" ++ "NEW") = some t0 →
      cfg.cooldownMs ≤ now - t0 →
      "NEW" ∈ (processAlphaStock cfg prevStocks success st now stock).2) ∧
    (∀ (cfg : ScanCfg) (prevStocks : List (String × PrevEntry))
        (success : String → String → Bool) (st : MarketAlertState) (now t0 : ℤ)
        (stock : AlphaStock) (p : PrevEntry),
      mapGetA prevStocks stock.symbol = some p →
      cfg.rvolPumpDelta ≤ stock.rvol_intraday_5m - p.rvol →
      mapGetA st.alertCooldowns (stock.symbol ++ ":" ++ "PUMP") = some t0 →
      cfg.cooldownMs ≤ now - t0 →
      "PUMP" ∈ (processAlphaStock cfg prevStocks success st now stock).2) ∧
    (∀ (cfg : ScanCfg) (prevStocks : List (String × PrevEntry))
        (success : String → String → Bool) (st : MarketAlertState) (now : ℤ)
        (stock : AlphaStock) (p : PrevEntry),
      mapGetA prevStocks stock.symbol = some p → 0 < p.price →
      (stock.close - p.price) / p.price * 100 ≤ cfg.dumpThreshold →
      "DUMP" ∈ (processAlphaStock cfg prevStocks success st now stock).2) := by
  refine ⟨?_, ?_, ?_, ?_, ?_⟩
  · intro cfg prevStocks success st now t0 stock hcd ht0 hwin
    exact newEntrant_suppressed_within_cooldown cfg prevStocks success st now t0 stock
      hcd ht0 hwin
  · intro cfg prevStocks success st now t0 stock hcd ht0 hwin
    exact pump_suppressed_within_cooldown cfg prevStocks success st now t0 stock hcd ht0 hwin
  · intro cfg prevStocks success st now t0 stock hprev hcd hbeyond
    exact newEntrant_realerts_beyond_cooldown cfg prevStocks success st now t0 stock
      hprev hcd hbeyond
  · intro cfg prevStocks success st now t0 stock p hprev hdelta hcd hbeyond
    exact pump_realerts_beyond_cooldown cfg prevStocks success st now t0 stock p
      hprev hdelta hcd hbeyond
  · intro cfg prevStocks success st now stock p hprev hp hdrop
    exact dump_always_alerts cfg prevStocks success st now stock p hprev hp hdrop

/-- Witness for `c6_cooldown_window_behaviour`: a NEW alert 1 second after the
last successful NEW alert is suppressed, while the same qualifying drop still
fires a DUMP alert. -/
theorem c6_cooldown_window_behaviour_witness :
    mapGetA ([("NASDAQ:AAA:NEW", (1000 : ℤ))]) ("NASDAQ:AAA" ++ ":" ++ "NEW")
      = some 1000 ∧
    "NEW" ∉ (processAlphaStock ⟨300000, 5, -2⟩ [] (fun _ _ => true)
      ⟨[("NASDAQ:AAA:NEW", 1000)], 0⟩ 2000 ⟨"NASDAQ:AAA", 5, 3, 10⟩).2 ∧
    "DUMP" ∈ (processAlphaStock ⟨300000, 5, -2⟩ [("NASDAQ:AAA", ⟨10, 3, 10, 0, 500⟩)]
      (fun _ _ => true) ⟨[], 0⟩ 2000 ⟨"NASDAQ:AAA", 5, 3, 10⟩).2 :=
  ⟨by with_unfolding_all exact of_decide_eq_true rfl,
   c6_cooldown_window_behaviour.1 ⟨300000, 5, -2⟩ [] (fun _ _ => true)
     ⟨[("NASDAQ:AAA:NEW", 1000)], 0⟩ 2000 1000 ⟨"NASDAQ:AAA", 5, 3, 10⟩
     (by with_unfolding_all exact of_decide_eq_true rfl) (by decide)
     (by decide),
   c6_cooldown_window_behaviour.2.2.2.2 ⟨300000, 5, -2⟩
     [("NASDAQ:AAA", ⟨10, 3, 10, 0, 500⟩)] (fun _ _ => true) ⟨[], 0⟩ 2000
     ⟨"NASDAQ:AAA", 5, 3, 10⟩ ⟨10, 3, 10, 0, 500⟩
     (by with_unfolding_all exact of_decide_eq_true rfl)
     (by with_unfolding_all exact of_decide_eq_true rfl)
     (by with_unfolding_all exact of_decide_eq_true rfl)⟩

/-- Claim C9 counterexample: in the spec's own scenario (values 10, 10.5, 11,
step 1, bootstrap suppressed) the single step-growth alert carries the previous
value but no repeat count — its step marker is empty, because `processStockData`
maintains no repeat counter and calls `createStockMessage` without the `count`
argument; a repeat count of 2 would have rendered as "[STEP #2] ". -/
theorem c9_step_alert_has_no_repeat_count :
    ((runSeq 1 ⟨[], true, false⟩ [10, 10.5, 11]).2.map (fun a => a.message.stepTag)
      = [""]) ∧
    ((runSeq 1 ⟨[], true, false⟩ [10, 10.5, 11]).2.map (fun a => a.message.changeSuffix)
      = [" (was 10.00%)"]) ∧
    (mkStockMessage (testStock 11) true (some 10) 2).stepTag = "[STEP #2] " := by
  refine ⟨?_, ?_, ?_⟩
  · with_unfolding_all exact of_decide_eq_true rfl
  · with_unfolding_all exact of_decide_eq_true rfl
  · with_unfolding_all exact of_decide_eq_true rfl

/-- Claim C9 (amended): for every symbol that notifies with success, `lastValue`
is set to the current value; the notification distinguishes a first sighting
(🚀) from step growth (📈) and step alerts include the previous value — but no
repeat counter exists, and the step-count marker is never emitted because the
call site leaves `count` at its default of 1. -/
theorem c9_alert_updates_state_and_message (step : ℚ) (st : StockState) (s : Stock)
    (sendOk : Stock → Bool)
    (hval : validateStockData s = true) (hfl : isValidFloat s = true)
    (hsa : shouldAlert st.lastReportedChanges step s = true)
    (hnotfirst : st.sendOnStartup = true ∨ st.isFirstScan = false)
    (hsend : sendOk s = true) :
    mapGetA (processStockData (.ok [s]) step st sendOk).1.lastReportedChanges s.symbol
      = some s.premarket_change ∧
    (processStockData (.ok [s]) step st sendOk).2 =
      [⟨s, mapGetA st.lastReportedChanges s.symbol,
        mkStockMessage s (mapGetA st.lastReportedChanges s.symbol).isSome
          (mapGetA st.lastReportedChanges s.symbol) 1, true⟩] ∧
    (∀ (t : Stock) (p : ℚ),
      (mkStockMessage t true (some p) 1).emoji = "📈" ∧
      (mkStockMessage t true (some p) 1).changeSuffix = " (was " ++ toFixed 2 p ++ "%)" ∧
      (mkStockMessage t true (some p) 1).stepTag = "") ∧
    (∀ t : Stock, (mkStockMessage t false none 1).emoji = "🚀" ∧
      (mkStockMessage t false none 1).stepTag = "") := by
  have hA1 : alertsFor st.lastReportedChanges step [s]
      = [(s, mapGetA st.lastReportedChanges s.symbol)] := by
    rw [alertsFor]
    simp [List.filter, hval, hfl, hsa]
  have hA : alertsFor st.lastReportedChanges step [s] ≠ [] := by
    rw [hA1]
    simp
  have hpd := processStockData_sends step st [s] sendOk hnotfirst hA
  rw [hA1] at hpd
  rw [hpd]
  refine ⟨?_, ?_, ?_, ?_⟩
  · simp only [List.map_cons, List.map_nil, List.foldl_cons, List.foldl_nil, hsend, if_true]
    exact mapGetA_mapSetA_self _ _ _
  · simp only [List.map_cons, List.map_nil, hsend]
  · intro t p
    refine ⟨rfl, rfl, rfl⟩
  · intro t
    refine ⟨rfl, rfl⟩

/-- Witness for `c9_alert_updates_state_and_message`: a step alert from 10 to 11
with step 1 records 11 as the new last value. -/
theorem c9_alert_updates_state_and_message_witness :
    shouldAlert [("NASDAQ:TEST", 10)] 1 (testStock 11) = true ∧
    mapGetA (processStockData (.ok [testStock 11]) 1
      ⟨[("NASDAQ:TEST", 10)], false, false⟩ (fun _ => true)).1.lastReportedChanges
      "NASDAQ:TEST" = some 11 :=
  ⟨by with_unfolding_all exact of_decide_eq_true rfl,
   (c9_alert_updates_state_and_message 1 ⟨[("NASDAQ:TEST", 10)], false, false⟩
     (testStock 11) (fun _ => true) rfl
     (by with_unfolding_all exact of_decide_eq_true rfl)
     (by with_unfolding_all exact of_decide_eq_true rfl)
     (Or.inr rfl) rfl).1⟩

/-- Claim C10: when the data fetch or response validation throws,
`processStockData` returns the input state with `lastReportedChanges` unchanged
but `isFirstScan` set to false, so a failed first scan consumes the
bootstrap-suppression flag; the next successful scan is treated as a non-first
scan and an eligible symbol then notifies instead of being baselined
silently. -/
theorem c10_failed_scan_consumes_bootstrap (step : ℚ) (st : StockState) (s : Stock)
    (sendOk sendOk2 : Stock → Bool)
    (hfs : st.isFirstScan = true) (hsos : st.sendOnStartup = false)
    (hval : validateStockData s = true) (hfl : isValidFloat s = true)
    (hsa : shouldAlert st.lastReportedChanges step s = true) :
    processStockData (.error ()) step st sendOk = ({ st with isFirstScan := false }, []) ∧
    (processStockData (.ok [s]) step
      (processStockData (.error ()) step st sendOk).1 sendOk2).2 ≠ [] := by
  refine ⟨processStockData_error step st sendOk, ?_⟩
  rw [processStockData_error]
  have hfilter : s ∈ ([s] : List Stock).filter
      (fun t => validateStockData t && isValidFloat t &&
        shouldAlert st.lastReportedChanges step t) :=
    List.mem_filter.mpr ⟨List.mem_singleton.mpr rfl, by rw [hval, hfl, hsa]; rfl⟩
  have hpair : (s, mapGetA st.lastReportedChanges s.symbol) ∈
      alertsFor st.lastReportedChanges step [s] := by
    rw [alertsFor]
    exact List.mem_map_of_mem _ hfilter
  have hA : alertsFor st.lastReportedChanges step [s] ≠ [] := by
    intro h
    rw [h] at hpair
    exact List.not_mem_nil _ hpair
  rw [processStockData_sends step ({ st with isFirstScan := false }) [s] sendOk2
    (Or.inr rfl) hA]
  intro h
  rw [List.map_eq_nil_iff] at h
  exact hA h

/-- Witness for `c10_failed_scan_consumes_bootstrap`: after a failed first scan,
the next scan notifies the eligible symbol instead of baselining it. -/
theorem c10_failed_scan_consumes_bootstrap_witness :
    (⟨[], true, false⟩ : StockState).isFirstScan = true ∧
    (processStockData (.ok [testStock 10]) 1
      (processStockData (.error ()) 1 ⟨[], true, false⟩ (fun _ => true)).1
      (fun _ => true)).2 ≠ [] :=
  ⟨rfl,
   (c10_failed_scan_consumes_bootstrap 1 ⟨[], true, false⟩ (testStock 10)
     (fun _ => true) (fun _ => true) rfl rfl rfl
     (by with_unfolding_all exact of_decide_eq_true rfl) rfl).2⟩

end TvsRocks
